import Mathlib

/-
  Formal model of the CATS ("Cifrazia Action Transport System") server
  implementation.  Python sources are embedded shallowly: pure logic becomes
  Lean functions, raised exceptions become `Except` errors or explicit error
  fields, and the per-connection mutable state is passed explicitly.
  Machine integers are modelled as `Nat`/`Int` (none of the modelled code
  relies on overflow).
-/

set_option maxRecDepth 4096

/-! ## Exceptions

Python exception classes that the modelled code distinguishes. -/

inductive PyErr
  | typeError
  | valueError
  deriving DecidableEq, Repr

/-! ## SHA256-time handshake (cats/handshake.py)

`SHA256TimeHandshake.get_hashes` computes
`time = round(datetime.now(tz=utc).timestamp() / 10) * 10` and hashes
`secret_key + str(time + i * 10)` for `i in range(-valid_window,
valid_window + 1)`.  `validate` reads 64 bytes, decodes them as UTF-8 and
tests membership; on success it writes `b'\x01'`, on failure it writes
`b'\x00'` and raises `HandshakeError`.

The model abstracts SHA-256 as a parameter `H : String → String`, the
64-byte read + UTF-8 decode as a `String` argument, and restricts the
timestamp to whole seconds (`t : Nat`), on which Python's
`round(t / 10)` is exact round-half-to-even. -/

namespace Handshake

/-- Python `round(t / 10)` for a whole number of seconds `t`:
round half to even. -/
def roundDiv10 (t : Nat) : Nat :=
  let q := t / 10
  let r := t % 10
  if r < 5 then q
  else if 5 < r then q + 1
  else if q % 2 = 0 then q else q + 1

/-- `time = round(timestamp / 10) * 10` as computed by `get_hashes`. -/
def roundBucket (t : Nat) : Nat := roundDiv10 t * 10

/-- `get_hashes`: the valid hex digests, in the source's list order
(`i` running from `-valid_window` to `valid_window`). -/
def getHashes (H : String → String) (secret : String) (w : Nat) (t : Nat) :
    List String :=
  (List.range (2 * w + 1)).map fun k : Nat =>
    H (secret ++ toString ((roundBucket t : Int) + ((k : Int) - (w : Int)) * 10))

/-- Outcome of `SHA256TimeHandshake.validate`: the byte written back to the
client and whether `HandshakeError` was raised. -/
structure VResult where
  wrote : List Nat
  err : Bool
  deriving DecidableEq, Repr

/-- `validate`: membership test of the presented digest in `get_hashes()`. -/
def validate (H : String → String) (secret : String) (w : Nat) (t : Nat)
    (presented : String) : VResult :=
  if presented ∈ getHashes H secret w t then
    { wrote := [0x01], err := false }
  else
    { wrote := [0x00], err := true }

/-- The bucket the specification describes: `floor(unix_seconds/10)*10`. -/
def specFloorBucket (t : Nat) : Nat := t / 10 * 10

/-- Valid set as the specification words it, with the floor bucket. -/
def specFloorHashes (H : String → String) (secret : String) (w : Nat) (t : Nat) :
    List String :=
  (List.range (2 * w + 1)).map fun k : Nat =>
    H (secret ++ toString ((specFloorBucket t : Int) + ((k : Int) - (w : Int)) * 10))

end Handshake

/-! ## Event bus (cats/app.py)

`Application.trigger` iterates over the listeners registered for an event,
in registration order, calling each one; there is no exception handling in
the loop, so the first listener that raises aborts the iteration and the
exception propagates to `trigger`'s caller.  A listener is modelled by the
outcome of calling it: `.ok ()` or `.error e`. -/

namespace EventBus

/-- `Application.trigger` restricted to one event: returns how many listeners
were actually called and the exception (if any) that propagated. -/
def trigger : List (Except PyErr Unit) → Nat × Option PyErr
  | [] => (0, none)
  | .ok _ :: rest =>
    let (n, e) := trigger rest
    (n + 1, e)
  | .error e :: _ => (1, some e)

end EventBus

/-! ## Payload codecs (cats/codecs.py)

Bytes are modelled as `List Nat`.  The filesystem is inlined: a `PyPath`
carries the file's name and content, and `os.path.getsize` is the content
length.  `ujson` serialization of the files header (a list of flat objects)
is abstracted into the `Archive` record holding the parsed header next to
the concatenated file bytes: the byte layout
`header_json ++ b'\x00\x00' ++ blob` is kept only as that pair, faithful
for every operation modelled here (the header JSON cannot contain the
separator).  UTF-8 encoding of JSON text is abstracted to the codepoint
sequence.  Floats are left out of the JSON model. -/

namespace Codecs

/-- A filesystem path together with the content stored under it. -/
structure PyPath where
  name : String
  content : List Nat
  deriving DecidableEq, Repr

/-- `cats.codecs.FileInfo`. -/
structure FileInfo where
  name : String
  path : PyPath
  size : Nat
  mime : Option String
  deriving DecidableEq, Repr

/-- A value that may appear inside a files payload: `FileInfo` or `Path`. -/
inductive PF
  | info (fi : FileInfo)
  | path (p : PyPath)
  deriving DecidableEq, Repr

/-- `FILE_TYPES`: `Path | List[...] | Dict[str, ...] | FileInfo`. -/
inductive FileTypes
  | path (p : PyPath)
  | flist (l : List PF)
  | fdict (l : List (String × PF))
  | info (fi : FileInfo)
  deriving DecidableEq, Repr

/-- JSON values (`str | int | dict | list | bool | None`; floats omitted). -/
inductive JVal
  | null
  | jbool (b : Bool)
  | jnum (n : Int)
  | jstr (s : String)
  | jarr (l : List JVal)
  | jobj (l : List (String × JVal))

/-- The union of payload values fed to `Codec.encode`. -/
inductive Value
  | vnone
  | vbytes (b : List Nat)
  | vjson (j : JVal)
  | vfiles (f : FileTypes)

/-- One entry of the files-archive header:
`{"key": key, "name": info.name, "size": info.size, "type": info.mime}`. -/
structure HeaderNode where
  key : String
  name : String
  size : Nat
  mime : Option String
  deriving DecidableEq, Repr

/-- A files archive as written by `FileCodec.encode` into a spill file:
the parsed header list and the concatenated payload bytes. -/
structure Archive where
  header : List HeaderNode
  blob : List Nat
  deriving DecidableEq, Repr

/-- The artifact produced by `Codec.encode`: a byte buffer or a spill file
(`Path`) holding a files archive. -/
inductive Artifact
  | buff (b : List Nat)
  | file (a : Archive)
  deriving DecidableEq, Repr

/-- String escaping used by the JSON printer. -/
def jescape (s : String) : String :=
  (s.replace "\\" "\\\\").replace "\"" "\\\""

/-- UTF-8 encoding abstracted to codepoints. -/
def strBytes (s : String) : List Nat :=
  s.data.map Char.toNat

mutual

/-- `ujson.encode` on the modelled JSON fragment (escaping of `\` and `"`
only; `ensure_ascii=False`). -/
def jserialize : JVal → String
  | .null => "null"
  | .jbool true => "true"
  | .jbool false => "false"
  | .jnum n => toString n
  | .jstr s => "\"" ++ jescape s ++ "\""
  | .jarr l => "[" ++ jserializeArr l ++ "]"
  | .jobj l => "\x7b" ++ jserializeObj l ++ "\x7d"

def jserializeArr : List JVal → String
  | [] => ""
  | [x] => jserialize x
  | x :: y :: rest => jserialize x ++ "," ++ jserializeArr (y :: rest)

def jserializeObj : List (String × JVal) → String
  | [] => ""
  | [(k, v)] => "\"" ++ jescape k ++ "\":" ++ jserialize v
  | (k, v) :: y :: rest =>
    "\"" ++ jescape k ++ "\":" ++ jserialize v ++ "," ++ jserializeObj (y :: rest)

end

/-- `ByteCodec.encode`: accepts `None` (returning `b''`) and bytes-like
values; everything else raises `TypeError`. -/
def byteEncode : Value → Except PyErr (List Nat)
  | .vnone => .ok []
  | .vbytes b => .ok b
  | _ => .error .typeError

/-- `ByteCodec.decode`. -/
def byteDecode (b : List Nat) : List Nat := b

/-- `JsonCodec.encode`: `ujson.encode(data).replace("</", "<\\/")` for the
`isinstance`-accepted types.  A `list`/`dict` of `Path`/`FileInfo` objects
passes the `isinstance` check but `ujson` then raises `TypeError`, so every
files value nets out to `TypeError` here. -/
def jsonEncode : Value → Except PyErr (List Nat)
  | .vnone => .ok (strBytes "null")
  | .vjson j => .ok (strBytes ((jserialize j).replace "</" "<\\/"))
  | _ => .error .typeError

/-- `FileCodec.path_to_file_info`. -/
def pathToFileInfo (p : PyPath) : FileInfo :=
  { name := p.name, path := p, size := p.content.length, mime := none }

/-- Name used by the `{i.name: i for i in data}` comprehension: both
`FileInfo` and `Path` expose `.name`. -/
def pfName : PF → String
  | .info fi => fi.name
  | .path p => p.name

/-- Python dict insertion: a repeated key keeps its first position but takes
the last value. -/
def dictInsert (d : List (String × PF)) (k : String) (v : PF) :
    List (String × PF) :=
  if d.any fun kv => kv.1 = k then
    d.map fun kv => if kv.1 = k then (k, v) else kv
  else d ++ [(k, v)]

/-- Build a Python dict from a sequence of insertions. -/
def pyDict (l : List (String × PF)) : List (String × PF) :=
  l.foldl (fun d kv => dictInsert d kv.1 kv.2) []

/-- `FileCodec.normalize_input`.  The source builds a converted list/dict in
the local `res` and then discards it: for a `list` input the returned dict
is `{i.name: i for i in data}` over the ORIGINAL items (so `Path` values
leak through), and for a `dict` input the original mapping is returned
unchanged.  On this value type the `TypeError` branches are unreachable. -/
def normalizeInput : FileTypes → List (String × PF)
  | .path p => [((pathToFileInfo p).name, .info (pathToFileInfo p))]
  | .info fi => [(fi.name, .info fi)]
  | .flist l => pyDict (l.map fun i => (pfName i, i))
  | .fdict l => l

/-- The header list comprehension of `FileCodec.encode`: reading `.size` on
a `Path` value raises `AttributeError` (netting to `TypeError`). -/
def headerOf : List (String × PF) → Except PyErr (List HeaderNode)
  | [] => .ok []
  | (_, .path _) :: _ => .error .typeError
  | (key, .info fi) :: rest => do
    let tail ← headerOf rest
    .ok ({ key := key, name := fi.name, size := fi.size, mime := fi.mime } :: tail)

/-- The copy loop of `FileCodec.encode` for one file: repeatedly
`f_fh.read(1 << 24)` while `left > 0`, writing each whole chunk; an empty
read raises `ValueError`. -/
def readLoop (content : List Nat) (left : Int) : Except PyErr (List Nat) :=
  if left ≤ 0 then .ok []
  else if h : (content.take 16777216).length = 0 then .error .valueError
  else do
    let rest ← readLoop (content.drop 16777216) (left - (content.take 16777216).length)
    .ok (content.take 16777216 ++ rest)
termination_by content.length
decreasing_by
  simp only [List.length_take] at h
  simp only [List.length_drop]
  omega

/-- Concatenated payload bytes written by `FileCodec.encode`. -/
def blobOf : List (String × PF) → Except PyErr (List Nat)
  | [] => .ok []
  | (_, .path _) :: _ => .error .typeError
  | (_, .info fi) :: rest => do
    let here ← readLoop fi.path.content fi.size
    let tail ← blobOf rest
    .ok (here ++ tail)

/-- `FileCodec.encode`: any `KeyError`/`ValueError`/`TypeError`/
`AttributeError` along the way is re-raised as `TypeError` (after deleting
the spill file). -/
def fileEncode (data : FileTypes) : Except PyErr Archive :=
  let items := normalizeInput data
  match headerOf items with
  | .error _ => .error .typeError
  | .ok hdr =>
    match blobOf items with
    | .error _ => .error .typeError
    | .ok blob => .ok { header := hdr, blob := blob }

/-- `FileCodec.encode` under the codec try-chain interface. -/
def fileEncodeValue : Value → Except PyErr Archive
  | .vfiles f => fileEncode f
  | _ => .error .typeError

/-- `FileCodec._unpack_file`: while `left > 0` read
`fh.read(max(left, 1 << 24))` — `max`, as in the source — write the whole
chunk, and decrement `left` by its length.  Returns the bytes written for
this node and the remaining stream. -/
def unpackFile (blob : List Nat) (left : Int) :
    Except PyErr (List Nat × List Nat) :=
  if left ≤ 0 then .ok ([], blob)
  else if h : (blob.take (max left 16777216).toNat).length = 0 then .error .valueError
  else do
    let (restContent, rest) ← unpackFile (blob.drop (max left 16777216).toNat)
      (left - (blob.take (max left 16777216).toNat).length)
    .ok (blob.take (max left 16777216).toNat ++ restContent, rest)
termination_by blob.length
decreasing_by
  simp only [List.length_take] at h
  simp only [List.length_drop]
  omega

/-- Python dict insertion for decode results. -/
def dictInsertFI (d : List (String × FileInfo)) (k : String) (v : FileInfo) :
    List (String × FileInfo) :=
  if d.any fun kv => kv.1 = k then
    d.map fun kv => if kv.1 = k then (k, v) else kv
  else d ++ [(k, v)]

/-- `FileCodec._decode_from_file`: unpack each header node in order,
threading the remaining stream bytes. -/
def decodeNodes (nodes : List HeaderNode) (blob : List Nat)
    (acc : List (String × FileInfo)) :
    Except PyErr (List (String × FileInfo)) :=
  match nodes with
  | [] => .ok acc
  | node :: rest => do
    let (content, blobRest) ← unpackFile blob node.size
    let fi : FileInfo :=
      { name := node.name, path := { name := "tmp", content := content },
        size := node.size, mime := node.mime }
    decodeNodes rest blobRest (dictInsertFI acc node.key fi)

/-- `FileCodec.decode` on a spill file (`isinstance(data, Path)` branch):
a `KeyError`/`ValueError`/`TypeError` inside becomes
`ValueError('Failed to parse Files form data')`. -/
def fileDecode (a : Archive) : Except PyErr (List (String × FileInfo)) :=
  match decodeNodes a.header a.blob [] with
  | .ok r => .ok r
  | .error _ => .error .valueError

/-- `Codec.encode`: try `ByteCodec`, `JsonCodec`, `FileCodec` in id order;
a `TypeError` moves to the next codec, any other error propagates; if all
refuse, raise `TypeError`. -/
def codecEncode (v : Value) : Except PyErr (Artifact × Nat) :=
  match byteEncode v with
  | .ok b => .ok (.buff b, 0x00)
  | .error .typeError =>
    match jsonEncode v with
    | .ok b => .ok (.buff b, 0x01)
    | .error .typeError =>
      match fileEncodeValue v with
      | .ok a => .ok (.file a, 0x02)
      | .error .typeError => .error .typeError
      | .error e => .error e
    | .error e => .error e
  | .error e => .error e

/-- Fixture: a one-byte file named "a". -/
def pa : PyPath := { name := "a", content := [120] }

/-- Fixture: a one-byte file named "b". -/
def pb : PyPath := { name := "b", content := [121] }

/-- Fixture: `FileInfo` for `pa` as `path_to_file_info` would build it. -/
def fi1 : FileInfo := { name := "a", path := pa, size := 1, mime := none }

/-- Fixture: `FileInfo` for `pb` as `path_to_file_info` would build it. -/
def fi2 : FileInfo := { name := "b", path := pb, size := 1, mime := none }

end Codecs

/-! ## Exception classes shared by the connection-layer models

The connection layer distinguishes exceptions by class:
`KeyboardInterrupt`, `asyncio.CancelledError` and tornado's
`StreamClosedError` are treated specially; every other class (including
`cats.errors.ProtocolError`) is an ordinary `Exception`. -/

inductive ExcKind
  | keyboardInterrupt
  | cancelledError
  | streamClosedError
  | other (clsName : String)
  deriving DecidableEq, Repr

/-- A raised Python exception: its class and `str(exc)`. -/
structure PyExc where
  kind : ExcKind
  msg : String
  deriving DecidableEq, Repr

/-- The classes re-raised by `except (KeyboardInterrupt, CancelledError,
StreamClosedError): raise` in `Connection.handle_request`. -/
def reRaised : ExcKind → Bool
  | .keyboardInterrupt => true
  | .cancelledError => true
  | .streamClosedError => true
  | .other _ => false

/-! ## Handler registry (cats/server/handlers.py)

`Api.register` manipulates the per-id list `self._handlers[handler.id]`;
the model works on that list directly (registration never touches any
other id's slot, and `compute` is pointwise).  Failed `assert`s are
`.error` results. -/

namespace ApiReg

/-- `cats.server.handlers.HandlerItem` (the callback is abstracted to a
tag). -/
structure HandlerItem where
  id : Nat
  name : String
  cb : Nat
  version : Option Nat
  endVersion : Option Nat
  deriving DecidableEq, Repr

/-- A wildcard item: registered with neither `version` nor `end_version`. -/
def isWildcard (h : HandlerItem) : Bool :=
  h.version.isNone && h.endVersion.isNone

/-- The range `assert`: fails only when both bounds are given and
`version > end_version`. -/
def rangeInvalid (h : HandlerItem) : Bool :=
  match h.version, h.endVersion with
  | some v, some ev => decide (ev < v)
  | _, _ => false

/-- `Api.register` on the item's own slot. -/
def register (l : List HandlerItem) (h : HandlerItem) :
    Except String (List HandlerItem) :=
  if h ∈ l then .ok l
  else if rangeInvalid h then .error "Invalid version range"
  else
    match h.version, h.endVersion with
    | none, none => .ok (l ++ [h])
    | none, some _ => .error "Initial version is not provided"
    | some v, _ =>
      match l.getLast? with
      | none => .ok (l ++ [h])
      | some last =>
        if isWildcard last then .error "Attempted to add versioned item to wildcard"
        else
          match last.endVersion with
          | some lev =>
            if lev < v then .ok (l ++ [h])
            else .error "Handler overlap (end_version)"
          | none =>
            match last.version with
            | some lv =>
              if lv < v then
                .ok (l.dropLast ++ [{ last with endVersion := some (v - 1) }, h])
              else .error "Handler overlap (version)"
            | none => .error "Attempted to add versioned item to wildcard"

/-- The shape `Api.compute` gives one slot: absent, a scalar for a lone
wildcard, a list otherwise. -/
inductive ComputeResult
  | scalar (h : HandlerItem)
  | list (l : List HandlerItem)
  deriving DecidableEq, Repr

/-- `Api.compute` restricted to one slot. -/
def computeSlot (l : List HandlerItem) : Option ComputeResult :=
  match l with
  | [] => none
  | [h] => if isWildcard h then some (.scalar h) else some (.list [h])
  | _ => some (.list l)

/-- Slot contents reachable by successful `register` calls from an empty
slot. -/
inductive Reach : List HandlerItem → Prop
  | nil : Reach []
  | step {l l' : List HandlerItem} {h : HandlerItem} :
      Reach l → register l h = .ok l' → Reach l'

/-- The upper bound of the most recently registered item's version range
(`end_version` when set, otherwise its open-ended `version`). -/
def lastBound (l : List HandlerItem) : Option Nat :=
  l.getLast?.bind fun last =>
    match last.endVersion with
    | some ev => some ev
    | none => last.version

/-- Fixture: a versioned item for handler id 1. -/
def itemA : HandlerItem :=
  { id := 1, name := "a", cb := 0, version := some 1, endVersion := none }

/-- Fixture: a wildcard item for handler id 1. -/
def itemW : HandlerItem :=
  { id := 1, name := "b", cb := 1, version := none, endVersion := none }

/-- Fixture: a second versioned item for handler id 1, overlapping
`itemA`. -/
def itemC : HandlerItem :=
  { id := 1, name := "c", cb := 2, version := some 1, endVersion := none }

end ApiReg

/-! ## Request handling (cats/server/conn.py, Connection.handle_request)

The model takes the in-flight pool, the request's `message_id`, the
outcome of `await shield(fn(request))` (after middleware) and the outcome
of `result.send_to_conn(self)`, and returns the new pool plus the
exception (if any) that propagates out of `handle_request`.  There is no
`finally` in the source: `self._message_pool.remove(message_id)` is the
last statement of the function, skipped when the re-raising `except`
clause fires. -/

namespace ConnHR

/-- Outcome of the middleware-wrapped handler call. -/
inductive HandlerResult
  | retNone
  | retResponse
  | retInvalid
  | raised (e : PyExc)
  deriving DecidableEq, Repr

/-- Python `list.remove`: drop the first occurrence. -/
def pyRemove (pool : List Nat) (x : Nat) : List Nat :=
  match pool with
  | [] => []
  | y :: rest => if y = x then rest else y :: pyRemove rest x

/-- Result of `handle_request`: the pool afterwards and the propagated
exception. -/
structure HROut where
  pool : List Nat
  raised : Option PyExc
  deriving DecidableEq, Repr

/-- `Connection.handle_request`. -/
def handleRequest (pool : List Nat) (mid : Nat) (hres : HandlerResult)
    (sendExc : Option PyExc) : HROut :=
  if mid ∈ pool then
    { pool := pool,
      raised := some { kind := .other "ProtocolError",
                       msg := "Provided message_id already in use" } }
  else
    let pool1 := pool ++ [mid]
    match hres with
    | .raised e =>
      if reRaised e.kind then { pool := pool1, raised := some e }
      else { pool := pyRemove pool1 mid, raised := none }
    | .retNone => { pool := pyRemove pool1 mid, raised := none }
    | .retInvalid => { pool := pyRemove pool1 mid, raised := none }
    | .retResponse =>
      match sendExc with
      | none => { pool := pyRemove pool1 mid, raised := none }
      | some e =>
        if reRaised e.kind then { pool := pool1, raised := some e }
        else { pool := pyRemove pool1 mid, raised := none }

end ConnHR

/-! ## Default middleware (cats/server/middleware.py and
cats/middleware.py)

Both files define `default_error_handler(handler, request)`.  The server
variant re-raises `KeyboardInterrupt` and `StreamClosedError` but catches
`CancelledError` separately, answering a fixed 500 response; the legacy
variant re-raises all three. -/

namespace Mw

/-- Outcome of `await handler(request)`. -/
inductive HandlerOutcome
  | ok (r : Option Nat)
  | raise (e : PyExc)
  deriving DecidableEq, Repr

/-- The `{'error': ..., 'message': ...}` payload of an error response. -/
structure ErrData where
  error : String
  message : String
  deriving DecidableEq, Repr

/-- What the middleware gives back to `handle_request`. -/
inductive MWResult
  | returned (r : Option Nat)
  | response (data : ErrData) (status : Nat)
  | reraise (e : PyExc)
  deriving DecidableEq, Repr

/-- `cats.server.middleware.default_error_handler`. -/
def serverDefaultErrorHandler : HandlerOutcome → MWResult
  | .ok r => .returned r
  | .raise e =>
    match e.kind with
    | .keyboardInterrupt => .reraise e
    | .streamClosedError => .reraise e
    | .cancelledError =>
      .response { error := "CancelledError", message := "Request was cancelled" } 500
    | .other c => .response { error := c, message := e.msg } 500

/-- `cats.middleware.default_error_handler` (the legacy module). -/
def legacyDefaultErrorHandler : HandlerOutcome → MWResult
  | .ok r => .returned r
  | .raise e =>
    match e.kind with
    | .keyboardInterrupt => .reraise e
    | .streamClosedError => .reraise e
    | .cancelledError => .reraise e
    | .other c => .response { error := c, message := e.msg } 500

end Mw

/-! ## Input sub-dialogs (cats/server/request.py, BaseRequest.input)

`BaseRequest.input` manipulates a pending-input mapping it reaches as
`self.conn.input_deq` (request.py:105, 107-108, 111, 114; `Input.cancel`
at line 45 pops from it too).  `Connection`, however, is a slotted class
whose `__slots__` (server/conn.py:31-34) contain `input_queue` and no
`input_deq`, and no class attribute of that name exists either, so in
CPython the very first read of `self.conn.input_deq` raises
`AttributeError` — before any entry is registered or cancelled.  The
model therefore performs that attribute lookup first; the rest of the
function transcribes the statements that would run on a mapping reached
by that name: an insertion-ordered list of `(message_id, bypass_count)`
entries, the limit check `amount = #non-bypass entries; if amount >
INPUT_LIMIT: cancel the entry with the smallest message_id`, the
duplicate-`message_id` `ProtocolError`, then registration. -/

namespace Inp

/-- The attribute names a `Connection` instance resolves: its `__slots__`
(cats/server/conn.py:31-34) plus the methods, properties and class
attributes of the class body (conn.py:29-278). -/
def connAttrNames : List String :=
  ["_closed", "stream", "host", "port", "api_version", "_app", "_scope",
   "download_speed", "_identity", "_credentials", "loop", "input_queue",
   "_idle_timer", "_message_pool", "is_sending",
   "MAX_PLAIN_DATA_SIZE", "is_open", "app", "init", "start",
   "set_download_speed", "send", "send_stream", "attach_to_channel",
   "detach_from_channel", "conns_with_same_identity",
   "conns_with_same_model", "tick", "identity", "credentials",
   "identity_scope_user", "signed_in", "sign_in", "sign_out",
   "on_tick_done", "handle_input_answer", "handle_request", "recv",
   "dispatch", "close", "reset_idle_timer", "_get_free_message_id",
   "lock_write"]

/-- Python attribute lookup `self.conn.<name>` on the slotted
`Connection`: a name it does not resolve raises `AttributeError`. -/
def connAttr (name : String) : Except PyExc Unit :=
  if name ∈ connAttrNames then .ok ()
  else .error { kind := .other "AttributeError",
                msg := "Connection object has no attribute " ++ name }

/-- `sum(1 for i in input_deq.values() if not i.bypass_count)`. -/
def nonBypassCount (deq : List (Nat × Bool)) : Nat :=
  (deq.filter fun e => !e.2).length

/-- `min(input_deq.keys())`. -/
def minKey (deq : List (Nat × Bool)) : Option Nat :=
  (deq.map Prod.fst).min?

/-- `Input.cancel` ends with `input_deq.pop(self.message_id, None)`. -/
def popKey (deq : List (Nat × Bool)) (k : Nat) : List (Nat × Bool) :=
  deq.filter fun e => e.1 ≠ k

/-- Result of one `BaseRequest.input` call that got past the attribute
lookup: the new mapping and whether `ProtocolError` was raised. -/
structure InpOut where
  deq : List (Nat × Bool)
  err : Option Unit
  deriving DecidableEq, Repr

/-- `BaseRequest.input` up to the registration of the new entry.  Every
path reads `self.conn.input_deq` before mutating anything (request.py:105
inside the limit check when `bypass_limit` is false, request.py:111 in
the duplicate check otherwise), so the lookup is performed first; on the
real `Connection` it fails and nothing below it ever runs. -/
def inputStep (L : Nat) (deq : List (Nat × Bool)) (mid : Nat)
    (bypassLimit bypassCount : Bool) : Except PyExc InpOut :=
  match connAttr "input_deq" with
  | .error e => .error e
  | .ok _ =>
    let deq1 :=
      if bypassLimit then deq
      else if L < nonBypassCount deq then
        match minKey deq with
        | some k => popKey deq k
        | none => deq
      else deq
    if deq1.any fun e => e.1 = mid then .ok { deq := deq1, err := some () }
    else .ok { deq := deq1 ++ [(mid, bypassCount)], err := none }

end Inp

/-! ## Frame dispatch (cats/server/conn.py, Connection.tick)

`tick` handles `type_id == 5` (DownloadSpeed), `isinstance(request,
Request)` (which includes `StreamRequest`), `isinstance(request,
InputRequest)`, and otherwise raises `ProtocolError('Unsupported
request')`.  `Ping` (`0xFF`) and `CancelInput` (`0x06`) subclass only
`BaseRequest`, so they fall into the `else`.  `on_tick_done` closes the
connection whenever the task raised. -/

namespace Tick

/-- The inbound frame kinds parsed by `recv` (discriminator in
parentheses). -/
inductive Frame
  | request (mid : Nat)
  | streamRequest (mid : Nat)
  | inputRequest (mid : Nat)
  | downloadSpeed (limit : Nat)
  | cancelInput (mid : Nat)
  | ping (sendTime : Nat)
  deriving DecidableEq, Repr

/-- The registry discriminator of each frame class. -/
def typeId : Frame → Nat
  | .request _ => 0x00
  | .streamRequest _ => 0x01
  | .inputRequest _ => 0x02
  | .downloadSpeed _ => 0x05
  | .cancelInput _ => 0x06
  | .ping _ => 0xFF

/-- What `tick` does with one parsed frame. -/
inductive TickOut
  | setSpeed (n : Nat)
  | speedIgnored
  | dispatchRequest (mid : Nat)
  | dispatchInputAnswer (mid : Nat)
  | protocolError
  deriving DecidableEq, Repr

/-- `Connection.tick`. -/
def tick : Frame → TickOut
  | .downloadSpeed l =>
    if l = 0 ∨ (1024 ≤ l ∧ l ≤ 33554432) then .setSpeed l else .speedIgnored
  | .request mid => .dispatchRequest mid
  | .streamRequest mid => .dispatchRequest mid
  | .inputRequest mid => .dispatchInputAnswer mid
  | .cancelInput _ => .protocolError
  | .ping _ => .protocolError

/-- `Connection.on_tick_done`: close the connection iff the tick task
raised. -/
def onTickDone (taskRaised : Bool) : Bool := taskRaised

end Tick

/-! ## Write lock (cats/server/conn.py, Connection.lock_write)

The `asynccontextmanager` generator is, in full:
`while self.is_sending: await sleep(0.05)` — `self.is_sending = True` —
`yield` — `self.is_sending = False`.  There is no `try/finally`: when the
`async with` body raises, the exception is thrown into the generator at
the `yield` and propagates, so the statement after the `yield` is
skipped.  The model runs one writer from a state where the lock is free,
with the body's outcome given. -/

namespace Lock

/-- `lock_write` around a body with the given outcome: final value of
`self.is_sending` and the exception propagated out of the `async with`. -/
def lockWrite (body : Except PyExc Unit) : Bool × Option PyExc :=
  match body with
  | .ok _ => (false, none)
  | .error e => (true, some e)

end Lock

/-! ## Theorems -/

/-- C10: `Codec.encode(None)` succeeds with the byte codec, returning the
empty byte string and type id `0x00`, before the JSON codec is ever tried —
even though `JsonCodec.encode(None)` itself would succeed and produce
`b'null'`. -/
theorem codec_encode_none_is_empty_bytes :
    Codecs.codecEncode .vnone = .ok (.buff [], 0x00) ∧
    Codecs.jsonEncode .vnone = .ok (Codecs.strBytes "null") :=
  ⟨rfl, rfl⟩

/-- C8: the claim expects `tick` to answer a received Ping frame with a
Pong; in the source `Ping` subclasses only `BaseRequest`, so `tick` falls
through to `raise ProtocolError('Unsupported request')` and
`on_tick_done` then closes the connection. -/
theorem tick_ping_raises_protocol_error (t : Nat) :
    Tick.tick (.ping t) = .protocolError ∧ Tick.onTickDone true = true :=
  ⟨rfl, rfl⟩

/-- C9: the claim expects `is_sending` to be `False` again after any send
attempt; `lock_write` has no `try/finally` around its `yield`, so when the
write body raises the flag stays `True` (it is reset only on normal
completion). -/
theorem lock_write_leaks_flag_on_error (e : PyExc) :
    (Lock.lockWrite (.error e)).1 = true ∧
    (Lock.lockWrite (.error e)).2 = some e ∧
    (Lock.lockWrite (.ok ())).1 = false :=
  ⟨rfl, rfl, rfl⟩

/-- C5 counterexample: the server's `default_error_handler` does not
re-raise `CancelledError` — it converts it into a 500 response, contrary
to the claim that cancellation is never converted into a response. -/
theorem server_middleware_converts_cancelled :
    Mw.serverDefaultErrorHandler (.raise { kind := .cancelledError, msg := "x" }) =
      .response { error := "CancelledError", message := "Request was cancelled" } 500 :=
  rfl

/-- C5 (amended): through `cats/server/middleware.py`,
`KeyboardInterrupt` and `StreamClosedError` are re-raised, a
`CancelledError` becomes the fixed 500 response
`{'error': 'CancelledError', 'message': 'Request was cancelled'}`, and any
other exception becomes `{'error': class_name, 'message': str(exc)}` with
status 500; in the legacy `cats/middleware.py` `CancelledError` is
re-raised as the claim states. -/
theorem default_error_handler_amended (e : PyExc) :
    (e.kind = .keyboardInterrupt ∨ e.kind = .streamClosedError →
      Mw.serverDefaultErrorHandler (.raise e) = .reraise e ∧
      Mw.legacyDefaultErrorHandler (.raise e) = .reraise e) ∧
    (e.kind = .cancelledError →
      Mw.serverDefaultErrorHandler (.raise e) =
        .response { error := "CancelledError", message := "Request was cancelled" } 500 ∧
      Mw.legacyDefaultErrorHandler (.raise e) = .reraise e) ∧
    (∀ c, e.kind = .other c →
      Mw.serverDefaultErrorHandler (.raise e) =
        .response { error := c, message := e.msg } 500 ∧
      Mw.legacyDefaultErrorHandler (.raise e) =
        .response { error := c, message := e.msg } 500) ∧
    (∀ r, Mw.serverDefaultErrorHandler (.ok r) = .returned r ∧
      Mw.legacyDefaultErrorHandler (.ok r) = .returned r) := by
  obtain ⟨k, m⟩ := e
  cases k <;>
    simp [Mw.serverDefaultErrorHandler, Mw.legacyDefaultErrorHandler]

/-- C5 witness: a plain `ValueError` is converted into the documented 500
response by both middleware variants. -/
theorem default_error_handler_amended_witness :
    Mw.serverDefaultErrorHandler
        (.raise { kind := .other "ValueError", msg := "boom" }) =
      .response { error := "ValueError", message := "boom" } 500 ∧
    Mw.legacyDefaultErrorHandler
        (.raise { kind := .other "ValueError", msg := "boom" }) =
      .response { error := "ValueError", message := "boom" } 500 :=
  (default_error_handler_amended { kind := .other "ValueError", msg := "boom" }).2.2.1
    "ValueError" rfl

/-- C7 counterexample: a listener that raises stops event delivery — with
two listeners of which the first raises, only one listener is invoked, so
delivery is not `ls.length` for every listener list. -/
theorem trigger_counterexample :
    ¬ ∀ ls : List (Except PyErr Unit), (EventBus.trigger ls).1 = ls.length := by
  intro hall
  have h := hall [.error .valueError, .ok ()]
  simp [EventBus.trigger] at h

/-- C7 (amended): listeners run in registration order, but the first
listener that raises aborts delivery: exactly the error-free ones before
it plus itself are invoked and its exception propagates out of `trigger`;
when no listener raises, all of them are invoked and nothing propagates. -/
theorem trigger_amended (pre post : List (Except PyErr Unit)) (e : PyErr)
    (hpre : ∀ x ∈ pre, x = .ok ()) :
    EventBus.trigger (pre ++ .error e :: post) = (pre.length + 1, some e) ∧
    EventBus.trigger pre = (pre.length, none) := by
  induction pre with
  | nil => simp [EventBus.trigger]
  | cons x rest ih =>
    have hx : x = .ok () := hpre x (by simp)
    subst hx
    have hrest : ∀ y ∈ rest, y = .ok () := fun y hy => hpre y (by simp [hy])
    obtain ⟨ih1, ih2⟩ := ih hrest
    constructor
    · simp only [List.cons_append, EventBus.trigger]
      simp [ih1]
    · simp only [EventBus.trigger]
      simp [ih2]

/-- C7 witness: with one well-behaved listener followed by a raising one,
both are invoked and the error propagates; the well-behaved one alone runs
to completion. -/
theorem trigger_amended_witness :
    EventBus.trigger [.ok (), .error .valueError] = (2, some .valueError) ∧
    EventBus.trigger [.ok ()] = (1, none) := by
  have h := trigger_amended [.ok ()] [] .valueError (by simp)
  exact ⟨h.1, h.2⟩

/-- C2 counterexample: at unix time 15 with window 1, the code buckets with
Python `round` (15/10 rounds to 2, bucket 20) while the claim's bucket is
`floor` (bucket 10); instantiating the hash with the identity function, the
digest for bucket+10 ("30") is accepted by `validate` although it is not in
the claim's floor-bucket valid set. -/
theorem handshake_counterexample :
    (Handshake.validate id "" 1 15 "30").err = false ∧
    "30" ∉ Handshake.specFloorHashes id "" 1 15 := by
  decide

/-- C2 (amended): the handshake accepts exactly the digests
`H(secret ++ str(bucket + i*10))` for `i ∈ [-W, W]` where
`bucket = round(unix_seconds/10)*10` (Python banker's rounding, not
floor); on a match it writes `0x01`, otherwise it writes `0x00` and raises
`HandshakeError`. -/
theorem handshake_round_bucket_amended (H : String → String) (secret : String)
    (w t : Nat) (presented : String) :
    ((Handshake.validate H secret w t presented).err = false ↔
      ∃ i : Int, -(w : Int) ≤ i ∧ i ≤ (w : Int) ∧
        presented = H (secret ++ toString ((Handshake.roundBucket t : Int) + i * 10))) ∧
    ((Handshake.validate H secret w t presented).err = false →
      (Handshake.validate H secret w t presented).wrote = [0x01]) ∧
    ((Handshake.validate H secret w t presented).err = true →
      (Handshake.validate H secret w t presented).wrote = [0x00]) := by
  have hiff : presented ∈ Handshake.getHashes H secret w t ↔
      ∃ i : Int, -(w : Int) ≤ i ∧ i ≤ (w : Int) ∧
        presented = H (secret ++ toString ((Handshake.roundBucket t : Int) + i * 10)) := by
    unfold Handshake.getHashes
    rw [List.mem_map]
    constructor
    · rintro ⟨k, hk, hEq⟩
      rw [List.mem_range] at hk
      exact ⟨(k : Int) - w, by omega, by omega, hEq.symm⟩
    · rintro ⟨i, h1, h2, hEq⟩
      have hnn := Int.toNat_of_nonneg (show (0 : Int) ≤ i + w by omega)
      refine ⟨(i + w).toNat, ?_, ?_⟩
      · rw [List.mem_range]
        omega
      · have hcast : (((i + (w : Int)).toNat : Int)) - (w : Int) = i := by omega
        rw [hEq, hcast]
  unfold Handshake.validate
  by_cases hmem : presented ∈ Handshake.getHashes H secret w t
  · rw [if_pos hmem]
    exact ⟨⟨fun _ => hiff.mp hmem, fun _ => rfl⟩, fun _ => rfl, fun h => by simp at h⟩
  · rw [if_neg hmem]
    exact ⟨⟨fun h => by simp at h, fun hex => absurd (hiff.mpr hex) hmem⟩,
      fun h => by simp at h, fun _ => rfl⟩

/-- C2 witness: with the identity hash, empty secret, window 0 and time 0,
the digest for bucket 0 is accepted and `0x01` is written. -/
theorem handshake_round_bucket_amended_witness :
    (Handshake.validate id "" 0 0 "0").err = false ∧
    (Handshake.validate id "" 0 0 "0").wrote = [0x01] := by
  have h := handshake_round_bucket_amended id "" 0 0 "0"
  have he : (Handshake.validate id "" 0 0 "0").err = false :=
    h.1.mpr ⟨0, by norm_num, by norm_num, by decide⟩
  exact ⟨he, h.2.1 he⟩

/-- Helper: removing a freshly appended element restores the pool. -/
theorem pyRemove_append (pool : List Nat) (mid : Nat) (h : mid ∉ pool) :
    ConnHR.pyRemove (pool ++ [mid]) mid = pool := by
  induction pool with
  | nil => simp [ConnHR.pyRemove]
  | cons y rest ih =>
    have hy : y ≠ mid := fun hEq => h (by simp [hEq])
    have hrest : mid ∉ rest := fun hm => h (by simp [hm])
    simp [ConnHR.pyRemove, hy, ih hrest]

/-- C4 counterexample: when the (middleware-wrapped) handler raises
`CancelledError`, `handle_request` re-raises it before reaching
`self._message_pool.remove(message_id)` — there is no `finally` — so the
`message_id` is NOT always removed from the in-flight set. -/
theorem handle_request_counterexample :
    ¬ ∀ (pool : List Nat) (mid : Nat) (hres : ConnHR.HandlerResult)
        (sendExc : Option PyExc),
        mid ∉ pool → mid ∉ (ConnHR.handleRequest pool mid hres sendExc).pool := by
  intro hall
  have h := hall [] 0 (.raised { kind := .cancelledError, msg := "" }) none
    (by simp)
  simp [ConnHR.handleRequest, reRaised] at h

/-- C4 (amended): a duplicate `message_id` fails with `ProtocolError`
without touching the pool; a fresh `message_id` is recorded before the
handler runs and is removed again whenever `handle_request` finishes
without re-raising (normal return, response sent, or any exception other
than `KeyboardInterrupt`/`CancelledError`/`StreamClosedError`); when one
of those three re-raising exceptions escapes, the id stays in the pool. -/
theorem handle_request_amended (pool : List Nat) (mid : Nat)
    (hres : ConnHR.HandlerResult) (sendExc : Option PyExc) :
    (mid ∈ pool → ConnHR.handleRequest pool mid hres sendExc =
      { pool := pool,
        raised := some { kind := .other "ProtocolError",
                         msg := "Provided message_id already in use" } }) ∧
    (mid ∉ pool →
      ((ConnHR.handleRequest pool mid hres sendExc).raised = none →
        (ConnHR.handleRequest pool mid hres sendExc).pool = pool) ∧
      (∀ e, (ConnHR.handleRequest pool mid hres sendExc).raised = some e →
        reRaised e.kind = true ∧
        (ConnHR.handleRequest pool mid hres sendExc).pool = pool ++ [mid])) := by
  constructor
  · intro hmem
    simp [ConnHR.handleRequest, hmem]
  · intro hnmem
    have hrem := pyRemove_append pool mid hnmem
    unfold ConnHR.handleRequest
    rw [if_neg hnmem]
    cases hres with
    | raised e =>
      by_cases hre : reRaised e.kind
      · simp [hre]
      · simp [hre, hrem]
    | retNone => simp [hrem]
    | retInvalid => simp [hrem]
    | retResponse =>
      cases sendExc with
      | none => simp [hrem]
      | some e =>
        by_cases hre : reRaised e.kind
        · simp [hre]
        · simp [hre, hrem]

/-- C4 witness: a fresh id with a normally returning handler leaves the
pool as it was. -/
theorem handle_request_amended_witness :
    (ConnHR.handleRequest [] 3 .retNone none).pool = ([] : List Nat) := by
  exact ((handle_request_amended [] 3 .retNone none).2 (by simp)).1 rfl

/-- C6: the claim describes the `INPUT_LIMIT` bookkeeping of
`BaseRequest.input`, but the pending mapping is read as
`self.conn.input_deq` while the slotted `Connection` defines only
`input_queue`: every `input` call — bypass flags and pending state
notwithstanding — raises `AttributeError` at the first read, before any
input is registered or the eviction ever runs, so the claimed bound never
governs the program. -/
theorem input_raises_attribute_error (L : Nat) (deq : List (Nat × Bool))
    (mid : Nat) (bypassLimit bypassCount : Bool) :
    Inp.inputStep L deq mid bypassLimit bypassCount =
      .error { kind := .other "AttributeError",
               msg := "Connection object has no attribute input_deq" } ∧
    "input_deq" ∉ Inp.connAttrNames ∧
    "input_queue" ∈ Inp.connAttrNames := by
  exact ⟨rfl, by decide, by decide⟩

/-- Helper: a slot whose items are all versioned satisfies the
versioned-then-wildcard shape. -/
theorem slot_shape_of_all_versioned {l : List ApiReg.HandlerItem}
    (hall : ∀ x ∈ l, ApiReg.isWildcard x = false) :
    ∃ k, k ≤ l.length ∧ (∀ x ∈ l.take k, ApiReg.isWildcard x = false) ∧
      (∀ x ∈ l.drop k, ApiReg.isWildcard x = true) :=
  ⟨l.length, le_rfl, by simpa [List.take_length] using hall, by simp⟩

/-- Helper: appending a wildcard preserves the versioned-then-wildcard
shape. -/
theorem slot_shape_append_wild {l : List ApiReg.HandlerItem}
    {h : ApiReg.HandlerItem}
    (hinv : ∃ k, k ≤ l.length ∧ (∀ x ∈ l.take k, ApiReg.isWildcard x = false) ∧
      (∀ x ∈ l.drop k, ApiReg.isWildcard x = true))
    (hw : ApiReg.isWildcard h = true) :
    ∃ k, k ≤ (l ++ [h]).length ∧
      (∀ x ∈ (l ++ [h]).take k, ApiReg.isWildcard x = false) ∧
      (∀ x ∈ (l ++ [h]).drop k, ApiReg.isWildcard x = true) := by
  obtain ⟨k, hk, h1, h2⟩ := hinv
  refine ⟨k, by simp; omega, ?_, ?_⟩
  · rw [List.take_append_eq_append_take, Nat.sub_eq_zero_of_le hk]
    simpa using h1
  · rw [List.drop_append_eq_append_drop, Nat.sub_eq_zero_of_le hk]
    intro x hx
    rcases List.mem_append.mp hx with hx | hx
    · exact h2 x hx
    · simp at hx
      rw [hx]
      exact hw

/-- Helper: if the last item of a shaped slot is not a wildcard, no item
is. -/
theorem all_versioned_of_last {l : List ApiReg.HandlerItem}
    {last : ApiReg.HandlerItem}
    (hinv : ∃ k, k ≤ l.length ∧ (∀ x ∈ l.take k, ApiReg.isWildcard x = false) ∧
      (∀ x ∈ l.drop k, ApiReg.isWildcard x = true))
    (hlast : l.getLast? = some last)
    (hnw : ApiReg.isWildcard last = false) :
    ∀ x ∈ l, ApiReg.isWildcard x = false := by
  obtain ⟨k, hk, h1, h2⟩ := hinv
  rcases Nat.eq_or_lt_of_le hk with hkl | hkl
  · intro x hx
    apply h1
    rw [hkl, List.take_length]
    exact hx
  · exfalso
    have hdne : l.drop k ≠ [] := by
      intro hnil
      have := congrArg List.length hnil
      simp at this
      omega
    have hsplit : l.take k ++ l.drop k = l := List.take_append_drop k l
    have hlast2 : (l.take k ++ l.drop k).getLast? = some last := by
      rw [hsplit]; exact hlast
    rw [List.getLast?_append_of_ne_nil _ hdne] at hlast2
    have hmem : last ∈ l.drop k := List.mem_of_mem_getLast? (by simp [hlast2])
    rw [h2 last hmem] at hnw
    cases hnw

/-- Helper: a successful `register` preserves the versioned-then-wildcard
shape of a slot. -/
theorem register_ok_shape {l : List ApiReg.HandlerItem}
    {h : ApiReg.HandlerItem} {l' : List ApiReg.HandlerItem}
    (hreg : ApiReg.register l h = .ok l')
    (hinv : ∃ k, k ≤ l.length ∧ (∀ x ∈ l.take k, ApiReg.isWildcard x = false) ∧
      (∀ x ∈ l.drop k, ApiReg.isWildcard x = true)) :
    ∃ k, k ≤ l'.length ∧ (∀ x ∈ l'.take k, ApiReg.isWildcard x = false) ∧
      (∀ x ∈ l'.drop k, ApiReg.isWildcard x = true) := by
  unfold ApiReg.register at hreg
  split at hreg
  · injection hreg with hEq
    subst hEq
    exact hinv
  · split at hreg
    · cases hreg
    · split at hreg
      case h_1 hv he =>
        injection hreg with hEq
        subst hEq
        exact slot_shape_append_wild hinv (by simp [ApiReg.isWildcard, hv, he])
      case h_2 => cases hreg
      case h_3 v hv =>
        have hhw : ApiReg.isWildcard h = false := by
          simp [ApiReg.isWildcard, hv]
        split at hreg
        case h_1 hlastnone =>
          have hl : l = [] := List.getLast?_eq_none_iff.mp hlastnone
          subst hl
          injection hreg with hEq
          subst hEq
          exact slot_shape_of_all_versioned (by simpa using hhw)
        case h_2 last hlast =>
          split at hreg
          · cases hreg
          case isFalse hnw =>
            have hall := all_versioned_of_last hinv hlast
              (Bool.not_eq_true _ ▸ by simpa using hnw)
            split at hreg
            case h_1 lev hlev =>
              split at hreg
              · injection hreg with hEq
                subst hEq
                apply slot_shape_of_all_versioned
                intro x hx
                rcases List.mem_append.mp hx with hx | hx
                · exact hall x hx
                · simp at hx
                  rw [hx]
                  exact hhw
              · cases hreg
            case h_2 hlevnone =>
              split at hreg
              case h_1 lv hlv =>
                split at hreg
                · injection hreg with hEq
                  subst hEq
                  apply slot_shape_of_all_versioned
                  intro x hx
                  rcases List.mem_append.mp hx with hx | hx
                  · exact hall x (List.dropLast_subset l hx)
                  · rcases List.mem_cons.mp hx with hx | hx
                    · rw [hx]
                      simp [ApiReg.isWildcard]
                    · simp at hx
                      rw [hx]
                      exact hhw
                · cases hreg
              case h_2 => cases hreg

/-- C3 counterexample: registering versioned `itemA` and then wildcard
`itemW` for the same id raises nothing, and `compute` then maps the id to
a list containing a wildcard together with a versioned item. -/
theorem api_wildcard_mix_counterexample :
    ApiReg.register [] ApiReg.itemA = .ok [ApiReg.itemA] ∧
    ApiReg.register [ApiReg.itemA] ApiReg.itemW =
      .ok [ApiReg.itemA, ApiReg.itemW] ∧
    ApiReg.computeSlot [ApiReg.itemA, ApiReg.itemW] =
      some (.list [ApiReg.itemA, ApiReg.itemW]) ∧
    ApiReg.isWildcard ApiReg.itemW = true ∧
    ApiReg.isWildcard ApiReg.itemA = false :=
  ⟨rfl, rfl, rfl, rfl, rfl⟩

/-- C3 (amended): in every slot reachable by successful `register` calls,
all versioned items precede all wildcard items — a versioned item is never
accepted after a wildcard, though a wildcard IS accepted after versioned
items (producing a mixed list); and registering a not-yet-registered
versioned item whose version does not exceed the upper bound of the most
recently registered item's range raises. -/
theorem api_register_amended (l : List ApiReg.HandlerItem)
    (hR : ApiReg.Reach l) :
    (∃ k, k ≤ l.length ∧ (∀ x ∈ l.take k, ApiReg.isWildcard x = false) ∧
      (∀ x ∈ l.drop k, ApiReg.isWildcard x = true)) ∧
    (∀ h v b, h ∉ l → h.version = some v → ApiReg.lastBound l = some b →
      v ≤ b → ∃ msg, ApiReg.register l h = .error msg) := by
  constructor
  · induction hR with
    | nil => exact ⟨0, by simp, by simp, by simp⟩
    | step hR hreg ih => exact register_ok_shape hreg ih
  · intro h v b hmem hv hb hle
    obtain ⟨hid, hname, hcb, hver, hev⟩ := h
    replace hv : hver = some v := hv
    subst hv
    unfold ApiReg.register
    rw [if_neg hmem]
    by_cases hri : ApiReg.rangeInvalid
        { id := hid, name := hname, cb := hcb, version := some v,
          endVersion := hev } = true
    · rw [if_pos hri]
      exact ⟨_, rfl⟩
    · rw [if_neg hri]
      rcases hlast : l.getLast? with _ | last
      · exfalso
        unfold ApiReg.lastBound at hb
        rw [hlast] at hb
        cases hb
      · unfold ApiReg.lastBound at hb
        rw [hlast] at hb
        replace hb : (match last.endVersion with
            | some ev => some ev
            | none => last.version) = some b := hb
        dsimp only
        by_cases hwl : ApiReg.isWildcard last = true
        · rw [if_pos hwl]
          exact ⟨_, rfl⟩
        · rw [if_neg hwl]
          rcases hle2 : last.endVersion with _ | lev
          · rw [hle2] at hb
            rcases hlv : last.version with _ | lv
            · rw [hlv] at hb
              cases hb
            · rw [hlv] at hb
              injection hb with hbv
              subst hbv
              dsimp only
              rw [if_neg (by omega)]
              exact ⟨_, rfl⟩
          · rw [hle2] at hb
            injection hb with hbv
            subst hbv
            dsimp only
            rw [if_neg (by omega)]
            exact ⟨_, rfl⟩

/-- C3 witness: the slot `[itemA]` is reachable, satisfies the shape, and
registering the overlapping `itemC` (version 1 against the open-ended
bound 1 of `itemA`) raises. -/
theorem api_register_amended_witness :
    (∃ k, k ≤ ([ApiReg.itemA]).length ∧
      (∀ x ∈ ([ApiReg.itemA]).take k, ApiReg.isWildcard x = false) ∧
      (∀ x ∈ ([ApiReg.itemA]).drop k, ApiReg.isWildcard x = true)) ∧
    (∃ msg, ApiReg.register [ApiReg.itemA] ApiReg.itemC = .error msg) := by
  have hstep : ApiReg.register [] ApiReg.itemA = .ok [ApiReg.itemA] := rfl
  have hre : ApiReg.Reach [ApiReg.itemA] :=
    ApiReg.Reach.step ApiReg.Reach.nil hstep
  have h := api_register_amended [ApiReg.itemA] hre
  refine ⟨h.1, h.2 ApiReg.itemC 1 1 ?_ rfl rfl le_rfl⟩
  intro hmem
  simp [ApiReg.itemC, ApiReg.itemA] at hmem

/-- C1: the files round-trip fails on the code.  Encoding a list of two
`Path`s raises `TypeError` — `normalize_input` builds the converted dict in
`res` but returns the original items, so the header comprehension reads
`.size` off a `Path` (`AttributeError`, re-raised as `TypeError`) and no
codec accepts the payload.  And even for a list of two well-formed
`FileInfo`s, whose archive encodes correctly, decoding the spill file
fails: `_unpack_file` reads `max(left, 1 << 24)` bytes — `max`, not
`min` — so the first node swallows the second node's bytes and the second
read comes back empty (`ValueError`). -/
theorem codec_files_roundtrip_failure :
    Codecs.codecEncode (.vfiles (.flist [.path Codecs.pa, .path Codecs.pb])) =
      .error .typeError ∧
    Codecs.fileEncode (.flist [.info Codecs.fi1, .info Codecs.fi2]) =
      .ok { header := [{ key := "a", name := "a", size := 1, mime := none },
                       { key := "b", name := "b", size := 1, mime := none }],
            blob := [120, 121] } ∧
    Codecs.fileDecode
        { header := [{ key := "a", name := "a", size := 1, mime := none },
                     { key := "b", name := "b", size := 1, mime := none }],
          blob := [120, 121] } = .error .valueError := by
  refine ⟨rfl, ?_, ?_⟩
  · simp [Codecs.fileEncode, Codecs.normalizeInput, Codecs.pyDict,
      Codecs.dictInsert, Codecs.headerOf, Codecs.blobOf, Codecs.readLoop,
      Codecs.pfName, Codecs.fi1, Codecs.fi2, Codecs.pa, Codecs.pb, bind,
      Except.bind]
  · simp [Codecs.fileDecode, Codecs.decodeNodes, Codecs.unpackFile,
      Codecs.dictInsertFI, bind, Except.bind]
